import Mathlib

/-!
Shallow embedding of the quiz-play session state machine of the QuizPlayer
component (src/unnamed/part_002, lines 312-372) and the time-limit
normalisation of the server creation route (src/server.ts, lines 89-113).

JS numbers that hold integer values are modelled as Int. The component
state hooks (currentQuestionIdx, score, timeLeft, selectedAnswer,
showResult, isGameOver) become the fields of a Session record; each
handler becomes a pure function from Session to Session. The phase of the
spec is derived from the state exactly in the order the render code tests
it: currentQuestionIdx equal to -1 first, then isGameOver, then
showResult.
-/

/-- One multiple-choice question, from the Question interface of
src/unnamed/part_001. The optional id is dropped: the state machine never
reads it. -/
structure Question where
  question_text : String
  option_a : String
  option_b : String
  option_c : String
  option_d : String
  correct_option : String
  time_limit : Int
deriving DecidableEq, Repr

/-- A loaded quiz as the session sees it. The metadata fields (id, title,
description, topic, created_at) are dropped: the state machine reads only
the ordered question list. A session exists only once the quiz has
loaded, so the questions field is the plain list, with the empty list
playing the role of a quiz with zero questions. -/
structure Quiz where
  questions : List Question
deriving DecidableEq, Repr

/-- The in-memory session state of QuizPlayer: the six useState hooks at
src/unnamed/part_002 lines 317-322. -/
structure Session where
  currentQuestionIdx : Int
  score : Int
  timeLeft : Int
  selectedAnswer : Option String
  showResult : Bool
  isGameOver : Bool
deriving DecidableEq, Repr

/-- The initial hook values: idx -1 (lobby), score 0, timeLeft 0, no
selected answer, no result shown, not game over. -/
def initSession : Session :=
  { currentQuestionIdx := -1, score := 0, timeLeft := 0,
    selectedAnswer := none, showResult := false, isGameOver := false }

/-- The phase of the spec, derived from the state in the order the render
code tests it (lines 377, 413, 479): idx -1 renders the lobby, then
isGameOver renders game over, then showResult renders the result view,
otherwise the question view. -/
inductive Phase where
  | Lobby
  | Question
  | Result
  | GameOver
deriving DecidableEq, Repr

def phase (s : Session) : Phase :=
  if s.currentQuestionIdx = -1 then Phase.Lobby
  else if s.isGameOver then Phase.GameOver
  else if s.showResult then Phase.Result
  else Phase.Question

/-- JS array indexing quiz.questions[i]: out-of-range or negative indices
give undefined, modelled as none. -/
def qAt (q : Quiz) (i : Int) : Option Question :=
  if 0 ≤ i then q.questions.get? i.toNat else none

/-- Math.round of the rational a / b for a positive divisor b: JS rounds
half away from zero upward, so round(a / b) is the floor of
(a / b + 1 / 2), which is the floored division of 2 * a + b by 2 * b. -/
def jsRound (a b : Int) : Int :=
  (2 * a + b).fdiv (2 * b)

/-- The JS fallback x || 20 applied to a time limit: 0 is falsy and is
replaced by 20, every other integer is truthy and kept as-is. -/
def effTimeLimit (t : Int) : Int :=
  if t = 0 then 20 else t

/-- The startQuiz handler (lines 342-345): unconditionally sets idx to 0
and timeLeft to quiz.questions[0].time_limit with the falsy fallback 20
(also taken when there is no question 0). There is no phase guard and no
empty-quiz check in the source. -/
def startQuiz (q : Quiz) (s : Session) : Session :=
  { s with currentQuestionIdx := 0,
           timeLeft := match qAt q 0 with
                       | some q0 => effTimeLimit q0.time_limit
                       | none => 20 }

/-- The handleAnswer handler (lines 347-359): returns early when
showResult is already set; otherwise records the option, shows the
result, and when the option triple-equals the current question
correct_option adds round(1000 * (timeLeft / (time_limit || 20))) + 500
to the score. When the current question is undefined the comparison
option === undefined is false for both a string and null, so no points
are added. -/
def handleAnswer (q : Quiz) (opt : Option String) (s : Session) : Session :=
  if s.showResult then s
  else
    let s1 := { s with selectedAnswer := opt, showResult := true }
    match qAt q s.currentQuestionIdx with
    | some cq =>
        if opt = some cq.correct_option then
          let points := jsRound (1000 * s.timeLeft) (effTimeLimit cq.time_limit) + 500
          { s1 with score := s1.score + points }
        else s1
    | none => s1

/-- The nextQuestion handler (lines 361-372): when idx is below the last
index it advances to idx + 1, loads that question time limit as-is (no
fallback at line 366), clears the selected answer and hides the result;
otherwise it sets isGameOver. The unloaded-quiz early return at line 362
cannot fire for a session, which exists only with a loaded quiz; the
out-of-range read quiz.questions[nextIdx] cannot occur while idx is at
least -1, and is mapped to 0 for totality. -/
def nextQuestion (q : Quiz) (s : Session) : Session :=
  if s.currentQuestionIdx < (q.questions.length : Int) - 1 then
    let nextIdx := s.currentQuestionIdx + 1
    { s with currentQuestionIdx := nextIdx,
             timeLeft := match qAt q nextIdx with
                         | some qq => qq.time_limit
                         | none => 0,
             selectedAnswer := none,
             showResult := false }
  else { s with isGameOver := true }

/-- One elapsed second, from the timer effect (lines 330-340): while in
the question view (idx at least 0, no result shown, not game over) a
positive timeLeft is decremented by one; when timeLeft is exactly 0 in
that view the effect calls handleAnswer(null) instead. Outside the
question view, or at a negative timeLeft, nothing happens. -/
def tick (q : Quiz) (s : Session) : Session :=
  if 0 ≤ s.currentQuestionIdx ∧ s.showResult = false ∧ s.isGameOver = false then
    if 0 < s.timeLeft then { s with timeLeft := s.timeLeft - 1 }
    else if s.timeLeft = 0 then handleAnswer q none s
    else s
  else s

/-- The four operations the presentation layer can feed into the state
machine. -/
inductive Op where
  | start
  | tick
  | submit (opt : Option String)
  | next
deriving DecidableEq, Repr

def step (q : Quiz) (s : Session) : Op → Session
  | Op.start => startQuiz q s
  | Op.tick => tick q s
  | Op.submit opt => handleAnswer q opt s
  | Op.next => nextQuestion q s

/-- Running a list of operations from the initial lobby state. -/
def run (q : Quiz) (ops : List Op) : Session :=
  ops.foldl (step q) initSession

/-- Every question of the quiz has a positive time limit, as the data
model of the spec demands of a loaded quiz. -/
def WF (q : Quiz) : Prop :=
  ∀ qq ∈ q.questions, 0 < qq.time_limit

instance (q : Quiz) : Decidable (WF q) := by
  unfold WF; infer_instance

/-- The time-limit normalisation of POST /api/quizzes in src/server.ts
line 102: q.time_limit || 20 replaces a falsy value (0, or a missing
field modelled as none) by 20 and stores any other value, negative ones
included, unchanged. -/
def storeTimeLimit (t : Option Int) : Int :=
  match t with
  | none => 20
  | some v => if v = 0 then 20 else v

/-- The two-question scenario of the spec: both questions have time limit
20, the first is correct on B, the second on C. -/
def scenarioQuiz : Quiz :=
  { questions :=
      [ { question_text := "q one", option_a := "a", option_b := "b",
          option_c := "c", option_d := "d", correct_option := "B",
          time_limit := 20 },
        { question_text := "q two", option_a := "a", option_b := "b",
          option_c := "c", option_d := "d", correct_option := "C",
          time_limit := 20 } ] }

def scenarioOps : List Op :=
  [Op.start, Op.tick, Op.tick, Op.tick, Op.tick, Op.tick,
   Op.submit (some "B"), Op.next, Op.submit (some "A"), Op.next]

/-- A concrete quiz with no questions. -/
def emptyQuiz : Quiz := { questions := [] }

/-- A concrete state that renders the question view of question 1. -/
def questionState : Session :=
  { currentQuestionIdx := 1, score := 0, timeLeft := 5,
    selectedAnswer := none, showResult := false, isGameOver := false }

/-- A quiz whose single question has a zero time limit. -/
def zeroTlQuiz : Quiz :=
  { questions :=
      [ { question_text := "q", option_a := "a", option_b := "b",
          option_c := "c", option_d := "d", correct_option := "A",
          time_limit := 0 } ] }

/-- A state ten seconds into the zero-time-limit question. -/
def zeroTlSession : Session :=
  { currentQuestionIdx := 0, score := 0, timeLeft := 10,
    selectedAnswer := none, showResult := false, isGameOver := false }

/-- The reachability invariant of a session: score and timeLeft stay
non-negative and the index never drops below the lobby value -1. -/
def ReachInv (s : Session) : Prop :=
  0 ≤ s.score ∧ 0 ≤ s.timeLeft ∧ -1 ≤ s.currentQuestionIdx

/-- A state showing the result view after a correct first answer. -/
def resultState : Session :=
  { currentQuestionIdx := 0, score := 1250, timeLeft := 15,
    selectedAnswer := some "B", showResult := true, isGameOver := false }

/-- A state on question 0 with fifteen seconds left, as in the scenario. -/
def witState : Session :=
  { currentQuestionIdx := 0, score := 0, timeLeft := 15,
    selectedAnswer := none, showResult := false, isGameOver := false }

/-- A state on question 0 whose timer has just reached zero. -/
def timeoutState : Session :=
  { currentQuestionIdx := 0, score := 0, timeLeft := 0,
    selectedAnswer := none, showResult := false, isGameOver := false }

/-- The first question of the scenario quiz, spelled out. -/
def witQ0 : Question :=
  { question_text := "q one", option_a := "a", option_b := "b",
    option_c := "c", option_d := "d", correct_option := "B",
    time_limit := 20 }

/-- A game-over state after the two-question scenario. -/
def gameOverState : Session :=
  { currentQuestionIdx := 1, score := 1250, timeLeft := 20,
    selectedAnswer := some "A", showResult := true, isGameOver := true }

lemma phase_eq_question (s : Session) :
    phase s = Phase.Question ↔
      ¬s.currentQuestionIdx = -1 ∧ s.isGameOver = false ∧ s.showResult = false := by
  unfold phase
  split_ifs <;> simp_all

lemma phase_eq_result (s : Session) :
    phase s = Phase.Result ↔
      ¬s.currentQuestionIdx = -1 ∧ s.isGameOver = false ∧ s.showResult = true := by
  unfold phase
  split_ifs <;> simp_all

lemma phase_eq_gameOver (s : Session) :
    phase s = Phase.GameOver ↔
      ¬s.currentQuestionIdx = -1 ∧ s.isGameOver = true := by
  unfold phase
  split_ifs <;> simp_all

lemma qAt_mem (q : Quiz) (i : Int) (cq : Question) (h : qAt q i = some cq) :
    cq ∈ q.questions := by
  unfold qAt at h
  split at h
  · exact List.get?_mem h
  · cases h

lemma jsRound_nonneg (a b : Int) (ha : 0 ≤ a) (hb : 0 < b) : 0 ≤ jsRound a b := by
  unfold jsRound
  exact Int.fdiv_nonneg (by omega) (by omega)

lemma jsRound_le_1000 (t tl : Int) (htl : t ≤ tl) (hp : 0 < tl) :
    jsRound (1000 * t) tl ≤ 1000 := by
  unfold jsRound
  rw [Int.fdiv_eq_ediv _ (by omega)]
  have h : 2 * (1000 * t) + tl < 1001 * (2 * tl) := by nlinarith
  have := (Int.ediv_lt_iff_lt_mul (a := 2 * (1000 * t) + tl) (b := 1001) (c := 2 * tl)
    (by omega)).mpr h
  omega

lemma jsRound_zero (tl : Int) (hp : 0 < tl) : jsRound 0 tl = 0 := by
  unfold jsRound
  rw [Int.fdiv_eq_ediv _ (by omega)]
  exact Int.ediv_eq_zero_of_lt (by omega) (by omega)

lemma jsRound_full (tl : Int) (hp : 0 < tl) : jsRound (1000 * tl) tl = 1000 := by
  unfold jsRound
  rw [Int.fdiv_eq_ediv _ (by omega)]
  have h : 2 * (1000 * tl) + tl = tl + 1000 * (2 * tl) := by ring
  rw [h, Int.add_mul_ediv_right _ _ (by omega : 2 * tl ≠ 0),
      Int.ediv_eq_zero_of_lt (by omega) (by omega)]
  omega

lemma effTimeLimit_pos (t : Int) (h : 0 < t) : 0 < effTimeLimit t := by
  unfold effTimeLimit
  split <;> omega

lemma effTimeLimit_of_pos (t : Int) (h : 0 < t) : effTimeLimit t = t := by
  unfold effTimeLimit
  split <;> omega

lemma handleAnswer_of_showResult (q : Quiz) (opt : Option String) (s : Session)
    (h : s.showResult = true) : handleAnswer q opt s = s := by
  unfold handleAnswer
  rw [if_pos h]

lemma handleAnswer_timeLeft (q : Quiz) (opt : Option String) (s : Session) :
    (handleAnswer q opt s).timeLeft = s.timeLeft := by
  unfold handleAnswer
  split
  · rfl
  · split
    · split <;> rfl
    · rfl

lemma handleAnswer_idx (q : Quiz) (opt : Option String) (s : Session) :
    (handleAnswer q opt s).currentQuestionIdx = s.currentQuestionIdx := by
  unfold handleAnswer
  split
  · rfl
  · split
    · split <;> rfl
    · rfl

lemma handleAnswer_gameOver (q : Quiz) (opt : Option String) (s : Session) :
    (handleAnswer q opt s).isGameOver = s.isGameOver := by
  unfold handleAnswer
  split
  · rfl
  · split
    · split <;> rfl
    · rfl

lemma handleAnswer_not_shown (q : Quiz) (opt : Option String) (s : Session)
    (h : s.showResult = false) :
    (handleAnswer q opt s).showResult = true ∧
    (handleAnswer q opt s).selectedAnswer = opt := by
  unfold handleAnswer
  rw [h]
  simp only [Bool.false_eq_true, if_false]
  split
  · split <;> exact ⟨rfl, rfl⟩
  · exact ⟨rfl, rfl⟩

lemma handleAnswer_score (q : Quiz) (opt : Option String) (s : Session) :
    (handleAnswer q opt s).score = s.score ∨
    (s.showResult = false ∧ ∃ cq, qAt q s.currentQuestionIdx = some cq ∧
      opt = some cq.correct_option ∧
      (handleAnswer q opt s).score
        = s.score + (jsRound (1000 * s.timeLeft) (effTimeLimit cq.time_limit) + 500)) := by
  unfold handleAnswer
  split
  · left; rfl
  next hns =>
    split
    next cq hcq =>
      split
      next ho => exact Or.inr ⟨by simpa using hns, cq, hcq, ho, rfl⟩
      next => left; rfl
    next => left; rfl

lemma handleAnswer_score_correct (q : Quiz) (s : Session) (cq : Question)
    (opt : Option String) (h : s.showResult = false)
    (hq : qAt q s.currentQuestionIdx = some cq) (ho : opt = some cq.correct_option) :
    (handleAnswer q opt s).score
      = s.score + (jsRound (1000 * s.timeLeft) (effTimeLimit cq.time_limit) + 500) := by
  unfold handleAnswer
  rw [h, hq]
  simp [ho]

lemma handleAnswer_score_wrong (q : Quiz) (s : Session) (opt : Option String)
    (hw : ∀ cq, qAt q s.currentQuestionIdx = some cq → opt ≠ some cq.correct_option) :
    (handleAnswer q opt s).score = s.score := by
  rcases handleAnswer_score q opt s with h | ⟨_, cq, hq, ho, _⟩
  · exact h
  · exact absurd ho (hw cq hq)

lemma points_pos (q : Quiz) (s : Session) (cq : Question) (hwf : WF q)
    (hq : qAt q s.currentQuestionIdx = some cq) (ht : 0 ≤ s.timeLeft) :
    0 < jsRound (1000 * s.timeLeft) (effTimeLimit cq.time_limit) + 500 := by
  have h1 : 0 < cq.time_limit := hwf cq (qAt_mem q _ cq hq)
  have h2 := jsRound_nonneg (1000 * s.timeLeft) (effTimeLimit cq.time_limit)
    (by omega) (effTimeLimit_pos _ h1)
  omega

lemma handleAnswer_score_ge (q : Quiz) (opt : Option String) (s : Session)
    (hwf : WF q) (ht : 0 ≤ s.timeLeft) :
    s.score ≤ (handleAnswer q opt s).score := by
  rcases handleAnswer_score q opt s with h | ⟨_, cq, hq, _, h⟩
  · omega
  · have := points_pos q s cq hwf hq ht
    omega

lemma handleAnswer_strict (q : Quiz) (opt : Option String) (s : Session)
    (h : s.score < (handleAnswer q opt s).score) :
    ∃ cq, qAt q s.currentQuestionIdx = some cq ∧ opt = some cq.correct_option := by
  rcases handleAnswer_score q opt s with h2 | ⟨_, cq, hq, ho, _⟩
  · omega
  · exact ⟨cq, hq, ho⟩

lemma nextQuestion_score (q : Quiz) (s : Session) :
    (nextQuestion q s).score = s.score := by
  unfold nextQuestion
  split <;> rfl

lemma qAt_isSome (q : Quiz) (i : Int) (h0 : 0 ≤ i)
    (h1 : i < (q.questions.length : Int)) : ∃ qq, qAt q i = some qq := by
  unfold qAt
  rw [if_pos h0]
  have hlt : i.toNat < q.questions.length := by omega
  exact ⟨_, List.get?_eq_get hlt⟩

lemma inv_init : ReachInv initSession := by
  unfold ReachInv initSession
  norm_num

lemma startQuiz_timeLeft_nonneg (q : Quiz) (s : Session) (hwf : WF q) :
    0 ≤ (startQuiz q s).timeLeft := by
  unfold startQuiz
  rcases hq : qAt q 0 with _ | q0
  · simp only [hq]
    omega
  · simp only [hq]
    have h1 := hwf q0 (qAt_mem q 0 q0 hq)
    have := effTimeLimit_pos q0.time_limit h1
    omega

lemma startQuiz_inv (q : Quiz) (s : Session) (hwf : WF q) (h : ReachInv s) :
    ReachInv (startQuiz q s) := by
  obtain ⟨h1, _, _⟩ := h
  refine ⟨h1, startQuiz_timeLeft_nonneg q s hwf, ?_⟩
  show (-1 : Int) ≤ 0
  omega

lemma handleAnswer_inv (q : Quiz) (opt : Option String) (s : Session)
    (hwf : WF q) (h : ReachInv s) : ReachInv (handleAnswer q opt s) := by
  obtain ⟨h1, h2, h3⟩ := h
  refine ⟨?_, ?_, ?_⟩
  · have := handleAnswer_score_ge q opt s hwf h2
    omega
  · rw [handleAnswer_timeLeft]
    exact h2
  · rw [handleAnswer_idx]
    exact h3

lemma nextQuestion_inv (q : Quiz) (s : Session) (hwf : WF q) (h : ReachInv s) :
    ReachInv (nextQuestion q s) := by
  obtain ⟨h1, h2, h3⟩ := h
  unfold nextQuestion
  split
  next hlt =>
    obtain ⟨qq, hq⟩ := qAt_isSome q (s.currentQuestionIdx + 1) (by omega) (by omega)
    simp only [hq]
    have := hwf qq (qAt_mem q _ qq hq)
    refine ⟨h1, ?_, ?_⟩
    · show 0 ≤ qq.time_limit
      omega
    · show -1 ≤ s.currentQuestionIdx + 1
      omega
  next => exact ⟨h1, h2, h3⟩

lemma tick_inv (q : Quiz) (s : Session) (hwf : WF q) (h : ReachInv s) :
    ReachInv (tick q s) := by
  obtain ⟨h1, h2, h3⟩ := h
  unfold tick
  split
  · split
    next hpos =>
      refine ⟨h1, ?_, h3⟩
      show 0 ≤ s.timeLeft - 1
      omega
    next =>
      split
      · exact handleAnswer_inv q none s hwf ⟨h1, h2, h3⟩
      · exact ⟨h1, h2, h3⟩
  · exact ⟨h1, h2, h3⟩

lemma inv_step (q : Quiz) (op : Op) (s : Session) (hwf : WF q) (h : ReachInv s) :
    ReachInv (step q s op) := by
  cases op with
  | start => exact startQuiz_inv q s hwf h
  | tick => exact tick_inv q s hwf h
  | submit opt => exact handleAnswer_inv q opt s hwf h
  | next => exact nextQuestion_inv q s hwf h

lemma inv_foldl (q : Quiz) (ops : List Op) (s : Session) (hwf : WF q)
    (h : ReachInv s) : ReachInv (ops.foldl (step q) s) := by
  induction ops generalizing s with
  | nil => exact h
  | cons op rest ih => exact ih (step q s op) (inv_step q op s hwf h)

lemma inv_run (q : Quiz) (ops : List Op) (hwf : WF q) : ReachInv (run q ops) :=
  inv_foldl q ops initSession hwf inv_init

lemma tick_score (q : Quiz) (s : Session) :
    (tick q s).score = s.score ∨ tick q s = handleAnswer q none s := by
  unfold tick
  split
  · split
    · left; rfl
    · split
      · right; rfl
      · left; rfl
  · left; rfl

lemma tick_timeLeft_cases (q : Quiz) (s : Session) :
    (tick q s).timeLeft = s.timeLeft ∨
    (tick q s).timeLeft = s.timeLeft - 1 ∧ 0 < s.timeLeft := by
  unfold tick
  split
  · split
    next hpos => right; exact ⟨rfl, hpos⟩
    next =>
      split
      · left
        rw [handleAnswer_timeLeft]
      · left; rfl
  · left; rfl

lemma step_score_ge (q : Quiz) (op : Op) (s : Session) (hwf : WF q)
    (h : ReachInv s) : s.score ≤ (step q s op).score := by
  obtain ⟨_, h2, _⟩ := h
  cases op with
  | start => exact le_of_eq rfl
  | tick =>
      rcases tick_score q s with ht | ht
      · show s.score ≤ (tick q s).score
        omega
      · show s.score ≤ (tick q s).score
        rw [ht]
        exact handleAnswer_score_ge q none s hwf h2
  | submit opt => exact handleAnswer_score_ge q opt s hwf h2
  | next => exact ge_of_eq (nextQuestion_score q s)

lemma step_score_strict (q : Quiz) (op : Op) (s : Session)
    (h : s.score < (step q s op).score) :
    ∃ cq, qAt q s.currentQuestionIdx = some cq ∧
      op = Op.submit (some cq.correct_option) := by
  cases op with
  | start => exact absurd h (by simp [step, startQuiz])
  | tick =>
      rcases tick_score q s with ht | ht
      · rw [step] at h
        omega
      · rw [step, ht] at h
        obtain ⟨cq, _, hno⟩ := handleAnswer_strict q none s h
        cases hno
  | submit opt =>
      obtain ⟨cq, hq, ho⟩ := handleAnswer_strict q opt s h
      exact ⟨cq, hq, by rw [ho]⟩
  | next =>
      rw [step, nextQuestion_score] at h
      omega

/-- C1: an answer submitted in the Question phase always transitions the
session to Result; when the option equals the current question
correct_option the score grows by exactly
round(1000 * timeRemaining / time_limit) + 500, otherwise (a different
option or none) the score is unchanged; and the two-question scenario of
the spec ends with a score of exactly 1250. -/
theorem handleAnswer_scoring (q : Quiz) (s : Session) (cq : Question)
    (opt : Option String) (hph : phase s = Phase.Question)
    (hq : qAt q s.currentQuestionIdx = some cq) (htl : 0 < cq.time_limit) :
    (opt = some cq.correct_option →
      (handleAnswer q opt s).score
        = s.score + (jsRound (1000 * s.timeLeft) cq.time_limit + 500)) ∧
    (opt ≠ some cq.correct_option → (handleAnswer q opt s).score = s.score) ∧
    phase (handleAnswer q opt s) = Phase.Result ∧
    (run scenarioQuiz scenarioOps).score = 1250 := by
  obtain ⟨hidx, hgo, hsr⟩ := (phase_eq_question s).mp hph
  refine ⟨?_, ?_, ?_, by decide⟩
  · intro ho
    rw [handleAnswer_score_correct q s cq opt hsr hq ho, effTimeLimit_of_pos _ htl]
  · intro ho
    apply handleAnswer_score_wrong
    intro cq2 hq2
    rw [hq] at hq2
    cases hq2
    exact ho
  · rw [phase_eq_result]
    refine ⟨?_, ?_, (handleAnswer_not_shown q opt s hsr).1⟩
    · rw [handleAnswer_idx]
      exact hidx
    · rw [handleAnswer_gameOver]
      exact hgo

theorem handleAnswer_scoring_witness :
    (handleAnswer scenarioQuiz (some "B") witState).score = 1250 ∧
    phase (handleAnswer scenarioQuiz (some "B") witState) = Phase.Result := by
  have h := handleAnswer_scoring scenarioQuiz witState witQ0 (some "B")
    (by decide) (by decide) (by decide)
  refine ⟨?_, h.2.2.1⟩
  rw [h.1 (by decide)]
  decide

/-- C2 counterexample: startQuiz invoked in the Question phase, where the
claim says it must be a silent no-op, is not one: it resets the index
to 0 and the timer to 20. -/
theorem startQuiz_outside_lobby_counterexample :
    phase questionState = Phase.Question ∧
    startQuiz scenarioQuiz questionState ≠ questionState := by decide

/-- C2 amended: only some of the out-of-phase invocations are no-ops.
A tick outside the Question phase changes nothing; submitAnswer changes
nothing once showResult is set (the Result phase, and GameOver when
reached from Result); nextQuestion in GameOver at or past the last index
changes nothing. startQuiz however has no phase guard at all, and
submitAnswer in Lobby and nextQuestion outside Result do mutate state;
the presentation layer merely never renders those controls outside their
valid phase. -/
theorem invalid_op_guards (q : Quiz) (s : Session) (opt : Option String) :
    (phase s ≠ Phase.Question → tick q s = s) ∧
    (s.showResult = true → handleAnswer q opt s = s) ∧
    (phase s = Phase.GameOver →
      (q.questions.length : Int) - 1 ≤ s.currentQuestionIdx →
      nextQuestion q s = s) := by
  refine ⟨?_, fun h => handleAnswer_of_showResult q opt s h, ?_⟩
  · intro hph
    unfold tick
    split
    next hguard =>
      obtain ⟨hg1, hg2, hg3⟩ := hguard
      exact absurd ((phase_eq_question s).mpr ⟨by omega, hg3, hg2⟩) hph
    next => rfl
  · intro hph hge
    obtain ⟨_, hgo⟩ := (phase_eq_gameOver s).mp hph
    unfold nextQuestion
    rw [if_neg (by omega)]
    cases s
    simp_all

theorem invalid_op_guards_witness :
    tick scenarioQuiz resultState = resultState ∧
    handleAnswer scenarioQuiz (some "C") resultState = resultState := by
  have h := invalid_op_guards scenarioQuiz resultState (some "C")
  exact ⟨h.1 (by decide), h.2.1 (by decide)⟩

/-- C3 counterexample: startQuiz on a quiz with zero questions, from the
initial Lobby state, does change the session and does leave Lobby, so it
is not the claimed no-op. -/
theorem startQuiz_empty_counterexample :
    phase initSession = Phase.Lobby ∧
    startQuiz emptyQuiz initSession ≠ initSession ∧
    phase (startQuiz emptyQuiz initSession) ≠ Phase.Lobby := by decide

/-- C3 amended: startQuiz on a loaded quiz with zero questions is not
guarded: it sets currentIndex to 0 and timeRemaining to the fallback 20
and the session leaves Lobby for Question; score, selectedAnswer and the
flags are unchanged. -/
theorem startQuiz_empty_transitions (q : Quiz) (s : Session)
    (hq : q.questions = []) (hgo : s.isGameOver = false)
    (hsr : s.showResult = false) :
    startQuiz q s = { s with currentQuestionIdx := 0, timeLeft := 20 } ∧
    phase (startQuiz q s) = Phase.Question := by
  have hat : qAt q 0 = none := by
    unfold qAt
    rw [if_pos (by omega), hq]
    rfl
  have he : startQuiz q s
      = { s with currentQuestionIdx := 0, timeLeft := 20 } := by
    unfold startQuiz
    rw [hat]
  refine ⟨he, ?_⟩
  rw [he, phase_eq_question]
  refine ⟨?_, hgo, hsr⟩
  show ¬(0 : Int) = -1
  omega

theorem startQuiz_empty_transitions_witness :
    startQuiz emptyQuiz initSession
      = { initSession with currentQuestionIdx := 0, timeLeft := 20 } ∧
    phase (startQuiz emptyQuiz initSession) = Phase.Question :=
  startQuiz_empty_transitions emptyQuiz initSession rfl rfl rfl

/-- C4: in the Question phase a tick on a positive timer decrements
timeRemaining by exactly one; the timer never goes below zero; and a tick
at timeRemaining zero behaves exactly as submitAnswer(none): it records
no option, leaves the score unchanged, and moves the phase to Result. -/
theorem tick_semantics (q : Quiz) (s : Session)
    (hidx : 0 ≤ s.currentQuestionIdx) (hph : phase s = Phase.Question) :
    (0 < s.timeLeft → tick q s = { s with timeLeft := s.timeLeft - 1 }) ∧
    (0 ≤ s.timeLeft → 0 ≤ (tick q s).timeLeft) ∧
    (s.timeLeft = 0 →
      tick q s = handleAnswer q none s ∧
      (tick q s).selectedAnswer = none ∧
      (tick q s).score = s.score ∧
      phase (tick q s) = Phase.Result) := by
  obtain ⟨hi, hgo, hsr⟩ := (phase_eq_question s).mp hph
  have hguard : 0 ≤ s.currentQuestionIdx ∧ s.showResult = false ∧
      s.isGameOver = false := ⟨hidx, hsr, hgo⟩
  refine ⟨?_, ?_, ?_⟩
  · intro hpos
    unfold tick
    rw [if_pos hguard, if_pos hpos]
  · intro hnn
    rcases tick_timeLeft_cases q s with h | ⟨h, hpos⟩ <;> omega
  · intro ht0
    have hteq : tick q s = handleAnswer q none s := by
      unfold tick
      rw [if_pos hguard, if_neg (by omega), if_pos ht0]
    refine ⟨hteq, ?_, ?_, ?_⟩
    · rw [hteq]
      exact (handleAnswer_not_shown q none s hsr).2
    · rw [hteq]
      exact handleAnswer_score_wrong q s none (fun cq _ hc => by cases hc)
    · rw [hteq, phase_eq_result]
      refine ⟨?_, ?_, (handleAnswer_not_shown q none s hsr).1⟩
      · rw [handleAnswer_idx]
        exact hi
      · rw [handleAnswer_gameOver]
        exact hgo

theorem tick_semantics_witness :
    tick scenarioQuiz timeoutState = handleAnswer scenarioQuiz none timeoutState ∧
    phase (tick scenarioQuiz timeoutState) = Phase.Result ∧
    (tick scenarioQuiz timeoutState).score = timeoutState.score := by
  have h := tick_semantics scenarioQuiz timeoutState (by decide) (by decide)
  obtain ⟨he, _, hsc, hps⟩ := h.2.2 rfl
  exact ⟨he, hps, hsc⟩

/-- C5: submitAnswer is idempotent per question: in the Result phase any
further submitAnswer is a full no-op, so two calls in a row honour only
the first, and the first call from the Question phase is what records
selectedAnswer. -/
theorem handleAnswer_idempotent (q : Quiz) (s s2 : Session)
    (opt o1 o2 : Option String) (hres : phase s = Phase.Result)
    (hq : phase s2 = Phase.Question) :
    handleAnswer q opt s = s ∧
    handleAnswer q o2 (handleAnswer q o1 s2) = handleAnswer q o1 s2 ∧
    (handleAnswer q o1 s2).selectedAnswer = o1 := by
  obtain ⟨_, _, hsr⟩ := (phase_eq_result s).mp hres
  obtain ⟨_, _, hs2⟩ := (phase_eq_question s2).mp hq
  exact ⟨handleAnswer_of_showResult q opt s hsr,
    handleAnswer_of_showResult q o2 _ (handleAnswer_not_shown q o1 s2 hs2).1,
    (handleAnswer_not_shown q o1 s2 hs2).2⟩

theorem handleAnswer_idempotent_witness :
    handleAnswer scenarioQuiz (some "A") resultState = resultState ∧
    handleAnswer scenarioQuiz (some "A")
        (handleAnswer scenarioQuiz (some "B") witState)
      = handleAnswer scenarioQuiz (some "B") witState ∧
    (handleAnswer scenarioQuiz (some "B") witState).selectedAnswer = some "B" := by
  have h := handleAnswer_idempotent scenarioQuiz resultState witState
    (some "A") (some "B") (some "A") (by decide) (by decide)
  exact h

/-- C6: from the initial Lobby state, after any sequence of operations on
a quiz whose time limits are positive, the score is a non-negative
integer; every further operation leaves it equal or larger; and it grows
strictly only on a submitAnswer carrying the current question
correct_option. -/
theorem score_nonneg_mono (q : Quiz) (ops : List Op) (op : Op) (hwf : WF q) :
    0 ≤ (run q ops).score ∧
    (run q ops).score ≤ (step q (run q ops) op).score ∧
    ((run q ops).score < (step q (run q ops) op).score →
      ∃ cq, qAt q (run q ops).currentQuestionIdx = some cq ∧
        op = Op.submit (some cq.correct_option)) := by
  have hinv := inv_run q ops hwf
  exact ⟨hinv.1, step_score_ge q op _ hwf hinv,
    fun h => step_score_strict q op _ h⟩

theorem score_nonneg_mono_witness :
    0 ≤ (run scenarioQuiz scenarioOps).score ∧
    (run scenarioQuiz scenarioOps).score
      ≤ (step scenarioQuiz (run scenarioQuiz scenarioOps) Op.tick).score :=
  ⟨(score_nonneg_mono scenarioQuiz scenarioOps Op.tick (by decide)).1,
   (score_nonneg_mono scenarioQuiz scenarioOps Op.tick (by decide)).2.1⟩

/-- C7: nextQuestion in the Result phase moves to GameOver when the
current index is the last one, and otherwise advances the index by one,
loads the next question time limit, clears selectedAnswer and returns to
the Question phase. -/
theorem nextQuestion_semantics (q : Quiz) (s : Session) (qq : Question)
    (hph : phase s = Phase.Result) (h0 : 0 ≤ s.currentQuestionIdx)
    (_hlen : s.currentQuestionIdx < (q.questions.length : Int)) :
    (s.currentQuestionIdx = (q.questions.length : Int) - 1 →
      nextQuestion q s = { s with isGameOver := true } ∧
      phase (nextQuestion q s) = Phase.GameOver) ∧
    (s.currentQuestionIdx < (q.questions.length : Int) - 1 →
      qAt q (s.currentQuestionIdx + 1) = some qq →
      nextQuestion q s
        = { s with currentQuestionIdx := s.currentQuestionIdx + 1,
                   timeLeft := qq.time_limit, selectedAnswer := none,
                   showResult := false } ∧
      phase (nextQuestion q s) = Phase.Question) := by
  obtain ⟨hi, hgo, hsr⟩ := (phase_eq_result s).mp hph
  constructor
  · intro hlast
    have he : nextQuestion q s = { s with isGameOver := true } := by
      unfold nextQuestion
      rw [if_neg (by omega)]
    refine ⟨he, ?_⟩
    rw [he, phase_eq_gameOver]
    exact ⟨hi, rfl⟩
  · intro hlt hq
    have he : nextQuestion q s
        = { s with currentQuestionIdx := s.currentQuestionIdx + 1,
                   timeLeft := qq.time_limit, selectedAnswer := none,
                   showResult := false } := by
      unfold nextQuestion
      rw [if_pos hlt]
      simp only [hq]
    refine ⟨he, ?_⟩
    rw [he, phase_eq_question]
    refine ⟨?_, hgo, rfl⟩
    show ¬s.currentQuestionIdx + 1 = -1
    omega

theorem nextQuestion_semantics_witness :
    nextQuestion scenarioQuiz resultState
      = { resultState with currentQuestionIdx := 1, timeLeft := 20,
                           selectedAnswer := none, showResult := false } ∧
    phase (nextQuestion scenarioQuiz resultState) = Phase.Question := by
  have h := nextQuestion_semantics scenarioQuiz resultState
    { question_text := "q two", option_a := "a", option_b := "b",
      option_c := "c", option_d := "d", correct_option := "C",
      time_limit := 20 }
    (by decide) (by decide) (by decide)
  exact h.2 (by decide) (by decide)

/-- C8: GameOver is terminal: from any session state of the game-over
view whose index is in the lifecycle range, no operation changes the
phase away from GameOver. -/
theorem gameOver_terminal (q : Quiz) (s : Session) (op : Op)
    (hidx : -1 ≤ s.currentQuestionIdx) (h : phase s = Phase.GameOver) :
    phase (step q s op) = Phase.GameOver := by
  obtain ⟨hi, hgo⟩ := (phase_eq_gameOver s).mp h
  have hidx0 : 0 ≤ s.currentQuestionIdx := by omega
  cases op with
  | start =>
      show phase (startQuiz q s) = Phase.GameOver
      rw [phase_eq_gameOver]
      refine ⟨?_, hgo⟩
      show ¬(0 : Int) = -1
      omega
  | tick =>
      show phase (tick q s) = Phase.GameOver
      have ht : tick q s = s := by
        unfold tick
        rw [if_neg (by simp [hgo])]
      rw [ht]
      exact h
  | submit opt =>
      show phase (handleAnswer q opt s) = Phase.GameOver
      rw [phase_eq_gameOver]
      constructor
      · rw [handleAnswer_idx]
        exact hi
      · rw [handleAnswer_gameOver]
        exact hgo
  | next =>
      show phase (nextQuestion q s) = Phase.GameOver
      unfold nextQuestion
      split
      · rw [phase_eq_gameOver]
        refine ⟨?_, hgo⟩
        show ¬s.currentQuestionIdx + 1 = -1
        omega
      · rw [phase_eq_gameOver]
        exact ⟨hi, rfl⟩

theorem gameOver_terminal_witness :
    phase (step scenarioQuiz gameOverState Op.start) = Phase.GameOver :=
  gameOver_terminal scenarioQuiz gameOverState Op.start (by decide) (by decide)

/-- C9 counterexample: the server creation path stores a negative time
limit unchanged (so it does not guarantee positivity), and the core does
handle a zero time limit defensively: answering the zero-time-limit
question correctly with ten seconds on the clock awards
round(1000 * 10 / 20) + 500 = 1000 points, using the fallback 20 rather
than the stored value 0. -/
theorem timeLimit_fallback_counterexample :
    storeTimeLimit (some (-5)) = -5 ∧
    ¬ 0 < storeTimeLimit (some (-5)) ∧
    (handleAnswer zeroTlQuiz (some "A") zeroTlSession).score
      = zeroTlSession.score + 1000 := by decide

/-- C9 amended: both the core and the server creation path replace only a
falsy time limit (0, or a missing field) by 20; every non-zero value,
negative ones included, is used and stored as-is, so positivity of stored
time limits is not guaranteed and zero is silently papered over rather
than treated as an unchecked precondition. -/
theorem timeLimit_fallback (t : Int) (h : t ≠ 0) :
    effTimeLimit t = t ∧ storeTimeLimit (some t) = t ∧
    effTimeLimit 0 = 20 ∧ storeTimeLimit (some 0) = 20 ∧
    storeTimeLimit none = 20 := by
  unfold effTimeLimit storeTimeLimit
  simp [h]

theorem timeLimit_fallback_witness :
    effTimeLimit (-5) = -5 ∧ storeTimeLimit (some (-5)) = -5 ∧
    effTimeLimit 0 = 20 ∧ storeTimeLimit (some 0) = 20 ∧
    storeTimeLimit none = 20 :=
  timeLimit_fallback (-5) (by decide)

/-- C10: a correct answer in the Question phase with a positive time
limit and a timer between 0 and the limit awards between 500 and 1500
points inclusive; exactly 500 at timer 0 and exactly 1500 at a full
timer. -/
theorem points_bounds (q : Quiz) (s : Session) (cq : Question)
    (hph : phase s = Phase.Question)
    (hq : qAt q s.currentQuestionIdx = some cq) (htl : 0 < cq.time_limit)
    (ht0 : 0 ≤ s.timeLeft) (ht1 : s.timeLeft ≤ cq.time_limit) :
    500 ≤ (handleAnswer q (some cq.correct_option) s).score - s.score ∧
    (handleAnswer q (some cq.correct_option) s).score - s.score ≤ 1500 ∧
    (s.timeLeft = 0 →
      (handleAnswer q (some cq.correct_option) s).score - s.score = 500) ∧
    (s.timeLeft = cq.time_limit →
      (handleAnswer q (some cq.correct_option) s).score - s.score = 1500) := by
  obtain ⟨_, _, hsr⟩ := (phase_eq_question s).mp hph
  have hsc := handleAnswer_score_correct q s cq (some cq.correct_option) hsr hq rfl
  rw [effTimeLimit_of_pos _ htl] at hsc
  have hnn := jsRound_nonneg (1000 * s.timeLeft) cq.time_limit (by omega) htl
  have hle := jsRound_le_1000 s.timeLeft cq.time_limit ht1 htl
  refine ⟨by omega, by omega, ?_, ?_⟩
  · intro h0
    have hz := jsRound_zero cq.time_limit htl
    rw [h0] at hsc
    simp only [mul_zero] at hsc
    omega
  · intro hfull
    have hf := jsRound_full cq.time_limit htl
    rw [hfull] at hsc
    omega

theorem points_bounds_witness :
    (handleAnswer scenarioQuiz (some "B") timeoutState).score
      - timeoutState.score = 500 := by
  have h := points_bounds scenarioQuiz timeoutState witQ0
    (by decide) (by decide) (by decide) (by decide) (by decide)
  exact h.2.2.1 rfl
